import Mathlib

set_option linter.unusedVariables false

/-! Verification of the tiles-grid engine of simulocloud (`simulocloud/tiles.py`):
the data model, the retiling algorithm, edge-grid construction, grid validation
and contiguous sub-grid slicing. The point-cloud collaborator
(`simulocloud/pointcloud.py`) is not part of the sources; the capabilities the
engine consumes from it are modelled from the specification and marked as such. -/

/-- The three spatial axes (the dict keys 'x', 'y', 'z'). -/
inductive Axis
  | x
  | y
  | z
deriving DecidableEq, Repr

/-- A 3D point with exact rational coordinates. -/
structure Point where
  x : ℚ
  y : ℚ
  z : ℚ
deriving DecidableEq, Repr

/-- Modelled from the spec: `Bounds` of the missing `simulocloud/pointcloud.py` is
an ordered 6-tuple (minx, miny, minz, maxx, maxy, maxz). It is a plain record:
min ≤ max per axis is the invariant of a "strict" bounds, not enforced by the
constructor (the source comments mark bounds validation as absent). -/
structure Bounds where
  minx : ℚ
  miny : ℚ
  minz : ℚ
  maxx : ℚ
  maxy : ℚ
  maxz : ℚ
deriving DecidableEq, Repr

/-- Modelled from the spec: the runtime class of a point-cloud object, either the
plain base class or the immutable `Tile` subclass. -/
inductive PCType
  | base
  | tile
deriving DecidableEq, Repr

/-- Modelled from the spec: a point cloud is a fixed ordered collection of
(x, y, z) coordinate tuples, tagged with its runtime class. -/
structure PointCloud where
  ty : PCType
  pts : List Point
deriving DecidableEq, Repr

/-- Coordinate of a point along one axis. -/
def coord (d : Axis) (p : Point) : ℚ :=
  match d with
  | Axis.x => p.x
  | Axis.y => p.y
  | Axis.z => p.z

/-- Modelled from the spec: the `bounds` accessor of a point cloud returns
(minx, miny, minz, maxx, maxy, maxz) over its points; on an empty cloud the
underlying reduction fails, modelled as `none`. -/
def PointCloud.bounds? (pc : PointCloud) : Option Bounds :=
  match pc.pts with
  | [] => Option.none
  | p :: ps =>
    some (ps.foldl
      (fun b q =>
        ⟨min b.minx q.x, min b.miny q.y, min b.minz q.z,
         max b.maxx q.x, max b.maxy q.y, max b.maxz q.z⟩)
      ⟨p.x, p.y, p.z, p.x, p.y, p.z⟩)

/-- Lower test for fragment `i` of a split at `locs`: the point lies strictly above
location `i-1`; the first fragment has no lower limit. -/
def fragLower (locs : List ℚ) (i : Nat) (c : ℚ) : Bool :=
  match i with
  | 0 => true
  | j + 1 =>
    match locs[j]? with
    | some lo => decide (lo < c)
    | Option.none => false

/-- Upper test for fragment `i` of a split at `locs`: the point lies at or below
location `i`; the last fragment has no upper limit. -/
def fragUpper (locs : List ℚ) (i : Nat) (c : ℚ) : Bool :=
  match locs[i]? with
  | some hi => decide (c ≤ hi)
  | Option.none => true

/-- Modelled from the spec: the external split capability of the missing
`simulocloud/pointcloud.py`. Given sorted locations along axis `d` it returns
`locs.length + 1` fragments in ascending spatial order, fragment `i` covering the
open-closed interval between location `i-1` and location `i`, the outermost
fragments extending to the cloud's own extent. The fragments are of class
`pctype` when one is given and of the cloud's own class when it is omitted (the
spec states that the tiles produced by retiling are of the immutable-tile
class). -/
def PointCloud.split (pc : PointCloud) (d : Axis) (locs : List ℚ) (pctype : Option PCType) : List PointCloud :=
  (List.range (locs.length + 1)).map fun i =>
    ⟨pctype.getD pc.ty,
     pc.pts.filter fun p => fragLower locs i (coord d p) && fragUpper locs i (coord d p)⟩

/-- Modelled from the spec: combining two clouds that occupy the same tile cell is
a simple union (concatenation); the combination keeps the class of the left
operand. -/
def PointCloud.add (p q : PointCloud) : PointCloud :=
  ⟨p.ty, p.pts ++ q.pts⟩

/-- An element of the dtype=object array produced by `retile`: either a point cloud
or the integer 0 that `numpy.sum` yields when reducing an empty axis. -/
inductive NpObj
  | int0
  | pc (p : PointCloud)
deriving DecidableEq, Repr

/-- `numpy.sum` along the stacking axis of a dtype=object array: a left fold of
cloud addition over the fragments, and the integer 0 on an empty axis. -/
def npsum (l : List PointCloud) : NpObj :=
  match l with
  | [] => NpObj.int0
  | p :: ps => NpObj.pc (ps.foldl PointCloud.add p)

/-- `tile.bounds` as evaluated by `validate`: fails (an uncaught exception,
modelled as `none`) on the integer 0 or on an empty cloud. -/
def npBounds? (o : NpObj) : Option Bounds :=
  match o with
  | NpObj.int0 => Option.none
  | NpObj.pc p => p.bounds?

/-- The `splitlocs` dict of tiles.py, restricted to its three meaningful keys; a
field is `none` when the key is absent from the dict. -/
structure SplitLocs where
  x : Option (List ℚ)
  y : Option (List ℚ)
  z : Option (List ℚ)
deriving DecidableEq, Repr

/-- `splitlocs.get(d, [])`, also the value observed by `setdefault(d, [])`. -/
def SplitLocs.get (sl : SplitLocs) (d : Axis) : List ℚ :=
  match d with
  | Axis.x => sl.x.getD []
  | Axis.y => sl.y.getD []
  | Axis.z => sl.z.getD []

/-- Python `sorted` on rational values (ascending). -/
def sortQ (l : List ℚ) : List ℚ :=
  List.insertionSort (fun a b => a ≤ b) l

/-- A 3-dimensional numpy array of objects: a shape together with a total lookup.
numpy basic slicing produces views that are pure index arithmetic, which this
representation captures exactly. -/
structure Arr3 (α : Type) where
  n0 : Nat
  n1 : Nat
  n2 : Nat
  get : Nat → Nat → Nat → α

/-- The 4-dimensional float edges array. -/
structure Arr4 where
  n0 : Nat
  n1 : Nat
  n2 : Nat
  n3 : Nat
  get : Nat → Nat → Nat → Nat → ℚ

/-- numpy basic slicing `a[s0:t0, s1:t1, s2:t2]` with nonnegative step-1 ranges:
each range is clipped to the axis length and the result is an offset view. -/
def Arr3.slice {α : Type} (a : Arr3 α) (r0 r1 r2 : Nat × Nat) : Arr3 α :=
  ⟨min r0.2 a.n0 - min r0.1 a.n0,
   min r1.2 a.n1 - min r1.1 a.n1,
   min r2.2 a.n2 - min r2.1 a.n2,
   fun i j k => a.get (min r0.1 a.n0 + i) (min r1.1 a.n1 + j) (min r2.1 a.n2 + k)⟩

/-- numpy basic slicing of the edges array along its first three axes. -/
def Arr4.slice (e : Arr4) (r0 r1 r2 : Nat × Nat) : Arr4 :=
  ⟨min r0.2 e.n0 - min r0.1 e.n0,
   min r1.2 e.n1 - min r1.1 e.n1,
   min r2.2 e.n2 - min r2.1 e.n2,
   e.n3,
   fun i j k m => e.get (min r0.1 e.n0 + i) (min r1.1 e.n1 + j) (min r2.1 e.n2 + k) m⟩

/-- The TilesGrid container: the 3D tiles array paired with the 4D edges array. -/
structure TilesGrid where
  tiles : Arr3 NpObj
  edges : Arr4

/-- `edges[i, j, k]`: the trailing 1D coordinate vector, or `none` (IndexError)
when a leading index is out of range. -/
def Arr4.get3? (e : Arr4) (i j k : Nat) : Option (List ℚ) :=
  if i < e.n0 ∧ j < e.n1 ∧ k < e.n2 then
    some ((List.range e.n3).map fun m => e.get i j k m)
  else
    Option.none

/-- One iteration of `validate`: fetch the two bounding edge vectors and the tile
bounds (a failure of any of these is an uncaught exception, `none`), then compare
lower edges against the tile minima and upper edges against the tile maxima. -/
def cellCheck (g : TilesGrid) (c : Nat × Nat × Nat) : Option Bool :=
  match g.edges.get3? c.1 c.2.1 c.2.2 with
  | Option.none => Option.none
  | some lo =>
    match g.edges.get3? (c.1 + 1) (c.2.1 + 1) (c.2.2 + 1) with
    | Option.none => Option.none
    | some hi =>
      match npBounds? (g.tiles.get c.1 c.2.1 c.2.2) with
      | Option.none => Option.none
      | some b =>
        some ((List.all (lo.zip [b.minx, b.miny, b.minz]) fun pr => decide (pr.1 ≤ pr.2)) &&
              (List.all (hi.zip [b.maxx, b.maxy, b.maxz]) fun pr => decide (pr.2 ≤ pr.1)))

/-- `itertools.product(*map(range, tiles.shape))`, in iteration order. -/
def cells (g : TilesGrid) : List (Nat × Nat × Nat) :=
  (List.range g.tiles.n0).flatMap fun ix =>
    (List.range g.tiles.n1).flatMap fun iy =>
      (List.range g.tiles.n2).map fun iz => (ix, iy, iz)

/-- The validation loop: early exit with `some false` at the first failing cell,
`none` when a cell evaluation raises. -/
def validateGo (g : TilesGrid) : List (Nat × Nat × Nat) → Option Bool
  | [] => some true
  | c :: cs =>
    match cellCheck g c with
    | Option.none => Option.none
    | some false => some false
    | some true => validateGo g cs

/-- `TilesGrid.validate`: True iff every tile's bounds fall inside its edge cell;
`none` models an uncaught exception (missing edge index or failing bounds). -/
def TilesGrid.validate (g : TilesGrid) : Option Bool :=
  validateGo g (cells g)

/-- tiles.py `retile`: sort each axis's locations (inserting missing keys into the
caller's dict), split every input cloud along x (passing the requested tile
class), then along y and z (class argument omitted), and sum the stacked 4D array
along the input axis. Returns the grid together with the updated splitlocs
mapping, making the in-place dict mutation explicit. -/
def retile (pcs : List PointCloud) (sl : SplitLocs) (pctype : PCType) : Arr3 NpObj × SplitLocs :=
  let xl := sortQ (sl.get Axis.x)
  let yl := sortQ (sl.get Axis.y)
  let zl := sortQ (sl.get Axis.z)
  let frag : Nat → Nat → Nat → Nat → PointCloud := fun i ix iy iz =>
    let p0 := pcs.getD i ⟨PCType.base, []⟩
    let p1 := (p0.split Axis.x xl (some pctype)).getD ix ⟨PCType.base, []⟩
    let p2 := (p1.split Axis.y yl Option.none).getD iy ⟨PCType.base, []⟩
    (p2.split Axis.z zl Option.none).getD iz ⟨PCType.base, []⟩
  (⟨xl.length + 1, yl.length + 1, zl.length + 1,
    fun ix iy iz => npsum ((List.range pcs.length).map fun i => frag i ix iy iz)⟩,
   ⟨some xl, some yl, some zl⟩)

/-- Modelled from the spec: `_get_dimension_bounds` of the missing pointcloud
module returns the (min, max) extent of a bounds record along one axis. -/
def dimensionBounds (b : Bounds) (d : Axis) : ℚ × ℚ :=
  match d with
  | Axis.x => (b.minx, b.maxx)
  | Axis.y => (b.miny, b.maxy)
  | Axis.z => (b.minz, b.maxz)

/-- Per-axis edge coordinates: `[mind] ++ dlocs ++ [maxd]`. -/
def edgeList (lo hi : ℚ) (locs : List ℚ) : List ℚ :=
  lo :: (locs ++ [hi])

/-- tiles.py `make_edges_grid`: build the per-axis coordinate lists (locations
taken exactly as stored, missing keys inserted with an empty sequence), mesh them
with indexing 'ij' and concatenate along a trailing size-3 axis. Returns the grid
together with the updated splitlocs mapping. -/
def make_edges_grid (b : Bounds) (sl : SplitLocs) : Arr4 × SplitLocs :=
  let xe := edgeList (dimensionBounds b Axis.x).1 (dimensionBounds b Axis.x).2 (sl.get Axis.x)
  let ye := edgeList (dimensionBounds b Axis.y).1 (dimensionBounds b Axis.y).2 (sl.get Axis.y)
  let ze := edgeList (dimensionBounds b Axis.z).1 (dimensionBounds b Axis.z).2 (sl.get Axis.z)
  (⟨xe.length, ye.length, ze.length, 3,
    fun i j k m => if m = 0 then xe.getD i 0 else if m = 1 then ye.getD j 0 else ze.getD k 0⟩,
   ⟨some (sl.get Axis.x), some (sl.get Axis.y), some (sl.get Axis.z)⟩)

/-- `numpy.linspace(lo, hi, num, endpoint=False)` over exact rationals. -/
def linspaceNE (lo hi : ℚ) (num : Nat) : List ℚ :=
  (List.range num).map fun i : Nat => lo + (hi - lo) * (i : ℚ) / (num : ℚ)

/-- tiles.py `fractional_splitlocs`: for each requested axis, the `n - 1` interior
evenly spaced locations (linspace without the endpoint, first entry dropped).
No bounds validation is performed: the Bounds constructor of the missing
pointcloud module is a plain record constructor. -/
def fractional_splitlocs (b : Bounds) (nx ny nz : Option Nat) : SplitLocs :=
  ⟨nx.map fun n => (linspaceNE (dimensionBounds b Axis.x).1 (dimensionBounds b Axis.x).2 n).drop 1,
   ny.map fun n => (linspaceNE (dimensionBounds b Axis.y).1 (dimensionBounds b Axis.y).2 n).drop 1,
   nz.map fun n => (linspaceNE (dimensionBounds b Axis.z).1 (dimensionBounds b Axis.z).2 n).drop 1⟩

/-- Union of two bounds records: per-axis min of minima and max of maxima. -/
def boundsUnion (a b : Bounds) : Bounds :=
  ⟨min a.minx b.minx, min a.miny b.miny, min a.minz b.minz,
   max a.maxx b.maxx, max a.maxy b.maxy, max a.maxz b.maxz⟩

/-- Modelled from the spec: `merge_bounds` of the missing pointcloud module returns
the union bounds of a sequence of bounds and fails on an empty sequence. -/
def merge_bounds (bs : List Bounds) : Option Bounds :=
  match bs with
  | [] => Option.none
  | b :: rest => some (rest.foldl boundsUnion b)

/-- `merge_bounds([pc.bounds for pc in pcs])`: fails when `pcs` is empty or some
cloud has no points. -/
def computeMergedBounds (pcs : List PointCloud) : Option Bounds :=
  match pcs.mapM PointCloud.bounds? with
  | Option.none => Option.none
  | some bs => merge_bounds bs

/-- Modelled from the spec: the per-axis content of
`_inside_bounds(splitloc_bounds, pcs_bounds)` --- the split locations lie strictly
within the merged bounds; an axis without locations carries the (inf, -inf)
placeholder, which lies within anything. The locations are sorted, so the first
and last suffice (the source takes `dlocs[0]` and `dlocs[-1]`). -/
def axisInside (lo hi : ℚ) (locs : List ℚ) : Bool :=
  match locs with
  | [] => true
  | l :: rest => decide (lo < l) && decide (rest.getLastD l < hi)

/-- Python exceptions raised by the construction and slicing paths. -/
inductive PyError
  | valueError (msg : String)
  | typeError (msg : String)
deriving DecidableEq, Repr

/-- tiles.py `TilesGrid.from_splitlocs`: sort each axis's locations, check that they
lie strictly within the merged bounds of the input clouds, then build the tiles
with `retile` and the edges with `make_edges_grid` from the same data, skipping
validation. Returns the grid with the final (mutated) splitlocs mapping. -/
def from_splitlocs (pcs : List PointCloud) (sl : SplitLocs) : Except PyError (TilesGrid × SplitLocs) :=
  let xl := sortQ (sl.get Axis.x)
  let yl := sortQ (sl.get Axis.y)
  let zl := sortQ (sl.get Axis.z)
  match computeMergedBounds pcs with
  | Option.none => Except.error (PyError.valueError "zero-size array to reduction operation")
  | some mb =>
    if axisInside mb.minx mb.maxx xl && axisInside mb.miny mb.maxy yl &&
       axisInside mb.minz mb.maxz zl then
      let ts := retile pcs ⟨some xl, some yl, some zl⟩ PCType.tile
      let es := make_edges_grid mb ts.2
      Except.ok (⟨ts.1, es.1⟩, es.2)
    else
      Except.error (PyError.valueError "Split locations must be within total bounds of pointclouds")

/-- One axis specifier of a `__getitem__` key: an integer, a slice, or Python
None (treated as the full slice by tiles.py). -/
inductive IndexSpec
  | int (i : Int)
  | slc (start stop step : Option Int)
  | pynone
deriving DecidableEq, Repr

/-- CPython clamp of a slice start to the valid range for the given step sign:
the lower limit is 0 (or -1 for a negative step), the upper limit n (or n - 1);
a missing start defaults to the low end (high end for a negative step). -/
def pyClampStart (a : Option Int) (step : Int) (n : Nat) : Int :=
  match a with
  | Option.none => if step < 0 then (n : Int) - 1 else 0
  | some v =>
    if v < 0 then max (v + (n : Int)) (if step < 0 then -1 else 0)
    else min v (if step < 0 then (n : Int) - 1 else (n : Int))

/-- CPython clamp of a slice stop, defaulting to the high end (low end for a
negative step). -/
def pyClampStop (b : Option Int) (step : Int) (n : Nat) : Int :=
  match b with
  | Option.none => if step < 0 then -1 else (n : Int)
  | some v =>
    if v < 0 then max (v + (n : Int)) (if step < 0 then -1 else 0)
    else min v (if step < 0 then (n : Int) - 1 else (n : Int))

/-- CPython `slice.indices(length)`: clamp start and stop according to the sign of
the step; raises ValueError on a zero step. -/
def pySliceIndices (a b c : Option Int) (n : Nat) : Except PyError (Int × Int × Int) :=
  if c.getD 1 = 0 then Except.error (PyError.valueError "slice step cannot be zero")
  else Except.ok (pyClampStart a (c.getD 1) n, pyClampStop b (c.getD 1) n, c.getD 1)

/-- Freeze one axis specifier to the tile count (tiles.py lines 65-78): a slice via
`slice.indices`, Python None as the full slice, an integer `i` as
`slice(i, i + 1)`; then any step other than 1 is rejected. -/
def normalizeSpec (sp : IndexSpec) (nd : Nat) : Except PyError (Nat × Nat) :=
  match
    (match sp with
     | IndexSpec.slc a b c => pySliceIndices a b c nd
     | IndexSpec.pynone => pySliceIndices Option.none Option.none Option.none nd
     | IndexSpec.int i => pySliceIndices (some i) (some (i + 1)) Option.none nd)
  with
  | Except.error e => Except.error e
  | Except.ok (start, stop, step) =>
    if step = 1 then Except.ok (start.toNat, stop.toNat)
    else Except.error (PyError.valueError "TilesGrid must be contiguous, slice step must be 1")

/-- The fill value of `izip_longest`: `slice(None)`. -/
def defaultSpec : IndexSpec := IndexSpec.slc Option.none Option.none Option.none

/-- Normalize a key of up to three specifiers against the tiles shape. Missing axes
are padded with the full slice; a fourth specifier would be paired with the fill
value and fails with a TypeError, after the first three axes are processed. -/
def normKey (key : List IndexSpec) (n0 n1 n2 : Nat) : Except PyError ((Nat × Nat) × (Nat × Nat) × (Nat × Nat)) :=
  match normalizeSpec (key.getD 0 defaultSpec) n0 with
  | Except.error e => Except.error e
  | Except.ok r0 =>
    match normalizeSpec (key.getD 1 defaultSpec) n1 with
    | Except.error e => Except.error e
    | Except.ok r1 =>
      match normalizeSpec (key.getD 2 defaultSpec) n2 with
      | Except.error e => Except.error e
      | Except.ok r2 =>
        if key.length ≤ 3 then Except.ok (r0, r1, r2)
        else Except.error (PyError.typeError "slice indices must be integers")

/-- Extend the slice stop by one for the edges array unless the integer difference
`stop - start` is zero (tiles.py lines 80-83; the Python test is truthiness of the
difference, so a reversed empty range is still extended, harmlessly). -/
def ekeyOf (r : Nat × Nat) : Nat × Nat :=
  if r.2 = r.1 then (r.1, r.2) else (r.1, r.2 + 1)

/-- `TilesGrid.__getitem__`: freeze the key to step-1 ranges against the tiles
shape, extend the stops for the edges array, and wrap the two sub-views without
re-validation. -/
def TilesGrid.getitem (g : TilesGrid) (key : List IndexSpec) : Except PyError TilesGrid :=
  match normKey key g.tiles.n0 g.tiles.n1 g.tiles.n2 with
  | Except.error e => Except.error e
  | Except.ok (r0, r1, r2) =>
    Except.ok ⟨g.tiles.slice r0 r1 r2, g.edges.slice (ekeyOf r0) (ekeyOf r1) (ekeyOf r2)⟩

/-! ## Helper lemmas -/

/-- Length of a per-axis edge list. -/
theorem edgeList_length (lo hi : ℚ) (locs : List ℚ) :
    (edgeList lo hi locs).length = locs.length + 2 := by
  simp [edgeList]

theorem meg_n0 (b : Bounds) (sl : SplitLocs) :
    (make_edges_grid b sl).1.n0 = (sl.get Axis.x).length + 2 := by
  simp [make_edges_grid, edgeList_length]

theorem meg_n1 (b : Bounds) (sl : SplitLocs) :
    (make_edges_grid b sl).1.n1 = (sl.get Axis.y).length + 2 := by
  simp [make_edges_grid, edgeList_length]

theorem meg_n2 (b : Bounds) (sl : SplitLocs) :
    (make_edges_grid b sl).1.n2 = (sl.get Axis.z).length + 2 := by
  simp [make_edges_grid, edgeList_length]

theorem meg_get0 (b : Bounds) (sl : SplitLocs) (i j k : Nat) :
    (make_edges_grid b sl).1.get i j k 0 = (edgeList b.minx b.maxx (sl.get Axis.x)).getD i 0 := rfl

theorem meg_get1 (b : Bounds) (sl : SplitLocs) (i j k : Nat) :
    (make_edges_grid b sl).1.get i j k 1 = (edgeList b.miny b.maxy (sl.get Axis.y)).getD j 0 := rfl

theorem meg_get2 (b : Bounds) (sl : SplitLocs) (i j k : Nat) :
    (make_edges_grid b sl).1.get i j k 2 = (edgeList b.minz b.maxz (sl.get Axis.z)).getD k 0 := rfl

/-- The last entry of a per-axis edge list is the axis maximum. -/
theorem edgeList_getD_last (lo hi : ℚ) (locs : List ℚ) :
    (edgeList lo hi locs).getD (locs.length + 1) 0 = hi := by
  rw [List.getD_eq_getElem?_getD]
  simp only [edgeList, List.getElem?_cons_succ, List.getElem?_concat_length]
  rfl

/-- A sorted edge list is entrywise monotone at consecutive indices. -/
theorem sorted_getD_mono {l : List ℚ} (hs : l.Sorted (fun a b => a ≤ b)) {i : Nat}
    (h : i + 1 < l.length) : l.getD i 0 ≤ l.getD (i + 1) 0 := by
  have hi : i < l.length := by omega
  rw [List.getD_eq_getElem l 0 hi, List.getD_eq_getElem l 0 h]
  have := List.pairwise_iff_get.mp hs ⟨i, hi⟩ ⟨i + 1, h⟩ (by simp)
  simpa using this

/-- The edge list of sorted locations within the axis extent is sorted. -/
theorem edgeList_sorted {lo hi : ℚ} {locs : List ℚ}
    (hs : locs.Sorted (fun a b => a ≤ b))
    (hin : ∀ l ∈ locs, lo ≤ l ∧ l ≤ hi) (hlh : lo ≤ hi) :
    (edgeList lo hi locs).Sorted (fun a b => a ≤ b) := by
  unfold edgeList
  refine List.sorted_cons.mpr ⟨?_, ?_⟩
  · intro c hc
    rcases List.mem_append.mp hc with h | h
    · exact (hin c h).1
    · simp only [List.mem_singleton] at h
      exact h ▸ hlh
  · refine List.pairwise_append.mpr ⟨hs, List.sorted_singleton hi, ?_⟩
    intro a ha c hc
    simp only [List.mem_singleton] at hc
    exact hc ▸ (hin a ha).2

/-! ## Claim C4 -/

/-- Claim C4: for every SplitLocs mapping, the tiles array produced by `retile` has
shape `(len x-locs + 1, len y-locs + 1, len z-locs + 1)` and the edges array
produced by `make_edges_grid` from the same mapping is exactly one larger along
each of the first three axes, with a trailing axis of size 3. -/
theorem claim_C4 (pcs : List PointCloud) (sl : SplitLocs) (pctype : PCType) (b : Bounds) :
    (retile pcs sl pctype).1.n0 = (sl.get Axis.x).length + 1 ∧
    (retile pcs sl pctype).1.n1 = (sl.get Axis.y).length + 1 ∧
    (retile pcs sl pctype).1.n2 = (sl.get Axis.z).length + 1 ∧
    (make_edges_grid b sl).1.n0 = (retile pcs sl pctype).1.n0 + 1 ∧
    (make_edges_grid b sl).1.n1 = (retile pcs sl pctype).1.n1 + 1 ∧
    (make_edges_grid b sl).1.n2 = (retile pcs sl pctype).1.n2 + 1 ∧
    (make_edges_grid b sl).1.n3 = 3 := by
  refine ⟨?_, ?_, ?_, ?_, ?_, ?_, rfl⟩ <;>
    simp [retile, meg_n0, meg_n1, meg_n2, sortQ]

/-! ## Claim C3 -/

/-- Claim C3 (amended): for every bounds record and SplitLocs mapping, the edge grid
returned by `make_edges_grid` is the outer-product mesh of the per-axis lists
`[axis-min] ++ stored locations ++ [axis-max]`; entry (0,0,0) is the global
minimum corner and the last entry the global maximum corner. When, additionally,
each axis's stored locations are sorted and lie within that axis's [min, max]
extent (with min ≤ max), coordinates along each axis are monotonically
non-decreasing in that axis's index. -/
theorem claim_C3_amended (b : Bounds) (sl : SplitLocs) :
    (∀ i j k : Nat,
      (make_edges_grid b sl).1.get i j k 0 = (edgeList b.minx b.maxx (sl.get Axis.x)).getD i 0 ∧
      (make_edges_grid b sl).1.get i j k 1 = (edgeList b.miny b.maxy (sl.get Axis.y)).getD j 0 ∧
      (make_edges_grid b sl).1.get i j k 2 = (edgeList b.minz b.maxz (sl.get Axis.z)).getD k 0) ∧
    ((make_edges_grid b sl).1.get 0 0 0 0 = b.minx ∧
     (make_edges_grid b sl).1.get 0 0 0 1 = b.miny ∧
     (make_edges_grid b sl).1.get 0 0 0 2 = b.minz) ∧
    ((make_edges_grid b sl).1.get ((make_edges_grid b sl).1.n0 - 1) ((make_edges_grid b sl).1.n1 - 1)
        ((make_edges_grid b sl).1.n2 - 1) 0 = b.maxx ∧
     (make_edges_grid b sl).1.get ((make_edges_grid b sl).1.n0 - 1) ((make_edges_grid b sl).1.n1 - 1)
        ((make_edges_grid b sl).1.n2 - 1) 1 = b.maxy ∧
     (make_edges_grid b sl).1.get ((make_edges_grid b sl).1.n0 - 1) ((make_edges_grid b sl).1.n1 - 1)
        ((make_edges_grid b sl).1.n2 - 1) 2 = b.maxz) ∧
    (((sl.get Axis.x).Sorted (fun a c => a ≤ c) →
      (∀ l ∈ sl.get Axis.x, b.minx ≤ l ∧ l ≤ b.maxx) → b.minx ≤ b.maxx →
      ∀ i j k : Nat, i + 1 < (make_edges_grid b sl).1.n0 →
        (make_edges_grid b sl).1.get i j k 0 ≤ (make_edges_grid b sl).1.get (i + 1) j k 0) ∧
     ((sl.get Axis.y).Sorted (fun a c => a ≤ c) →
      (∀ l ∈ sl.get Axis.y, b.miny ≤ l ∧ l ≤ b.maxy) → b.miny ≤ b.maxy →
      ∀ i j k : Nat, j + 1 < (make_edges_grid b sl).1.n1 →
        (make_edges_grid b sl).1.get i j k 1 ≤ (make_edges_grid b sl).1.get i (j + 1) k 1) ∧
     ((sl.get Axis.z).Sorted (fun a c => a ≤ c) →
      (∀ l ∈ sl.get Axis.z, b.minz ≤ l ∧ l ≤ b.maxz) → b.minz ≤ b.maxz →
      ∀ i j k : Nat, k + 1 < (make_edges_grid b sl).1.n2 →
        (make_edges_grid b sl).1.get i j k 2 ≤ (make_edges_grid b sl).1.get i j (k + 1) 2)) := by
  refine ⟨fun i j k => ⟨meg_get0 b sl i j k, meg_get1 b sl i j k, meg_get2 b sl i j k⟩,
    ⟨rfl, rfl, rfl⟩, ⟨?_, ?_, ?_⟩, ?_, ?_, ?_⟩
  · rw [meg_get0, meg_n0]
    simpa using edgeList_getD_last b.minx b.maxx (sl.get Axis.x)
  · rw [meg_get1, meg_n1]
    simpa using edgeList_getD_last b.miny b.maxy (sl.get Axis.y)
  · rw [meg_get2, meg_n2]
    simpa using edgeList_getD_last b.minz b.maxz (sl.get Axis.z)
  · intro hs hin hlh i j k hi
    rw [meg_get0, meg_get0]
    refine sorted_getD_mono (edgeList_sorted hs hin hlh) ?_
    rw [meg_n0] at hi
    simpa [edgeList_length] using hi
  · intro hs hin hlh i j k hj
    rw [meg_get1, meg_get1]
    refine sorted_getD_mono (edgeList_sorted hs hin hlh) ?_
    rw [meg_n1] at hj
    simpa [edgeList_length] using hj
  · intro hs hin hlh i j k hk
    rw [meg_get2, meg_get2]
    refine sorted_getD_mono (edgeList_sorted hs hin hlh) ?_
    rw [meg_n2] at hk
    simpa [edgeList_length] using hk

/-- Claim C3 counterexample: with bounds (0,0,0,10,10,10) and the (sorted) split
location 20 on the x axis, the edge coordinates along x are 0, 20, 10 --- not
monotonically non-decreasing, refuting the unconditional monotonicity claim. -/
theorem claim_C3_counterexample :
    (make_edges_grid ⟨0, 0, 0, 10, 10, 10⟩ ⟨some [20], Option.none, Option.none⟩).1.n0 = 3 ∧
    ¬((make_edges_grid ⟨0, 0, 0, 10, 10, 10⟩ ⟨some [20], Option.none, Option.none⟩).1.get 1 0 0 0 ≤
      (make_edges_grid ⟨0, 0, 0, 10, 10, 10⟩ ⟨some [20], Option.none, Option.none⟩).1.get 2 0 0 0) := by
  constructor
  · rfl
  · decide

/-- Claim C3 witness: the amended theorem applied at the concrete scenario bounds
(0,0,0,20,16,10) with splitlocs x = [10], y = [8]: the mesh entry (1,1,0) is
(10, 8, 0) and monotonicity holds along x. -/
theorem claim_C3_witness :
    ((make_edges_grid ⟨0, 0, 0, 20, 16, 10⟩ ⟨some [10], some [8], Option.none⟩).1.get 1 1 0 0 =
        (edgeList 0 20 [10]).getD 1 0 ∧
      (make_edges_grid ⟨0, 0, 0, 20, 16, 10⟩ ⟨some [10], some [8], Option.none⟩).1.get 1 1 0 1 =
        (edgeList 0 16 [8]).getD 1 0) ∧
    (make_edges_grid ⟨0, 0, 0, 20, 16, 10⟩ ⟨some [10], some [8], Option.none⟩).1.get 0 0 0 0 = 0 ∧
    (make_edges_grid ⟨0, 0, 0, 20, 16, 10⟩ ⟨some [10], some [8], Option.none⟩).1.get 0 0 0 0 ≤
      (make_edges_grid ⟨0, 0, 0, 20, 16, 10⟩ ⟨some [10], some [8], Option.none⟩).1.get 1 0 0 0 := by
  have h := claim_C3_amended ⟨0, 0, 0, 20, 16, 10⟩ ⟨some [10], some [8], Option.none⟩
  refine ⟨⟨(h.1 1 1 0).1, (h.1 1 1 0).2.1⟩, h.2.1.1, ?_⟩
  exact h.2.2.2.1 (by decide) (by decide) (by decide) 0 0 0 (by decide)

/-! ## Claim C10 -/

/-- Claim C10 counterexample: `retile` does not leave the caller's splitlocs
mapping unchanged --- missing axis keys are inserted and the stored sequence is
replaced by its sorted copy. -/
theorem claim_C10_counterexample :
    (retile [] ⟨some [3, 1], Option.none, Option.none⟩ PCType.tile).2 ≠
      ⟨some [3, 1], Option.none, Option.none⟩ := by
  decide

/-- Claim C10 (amended): the routines are deterministic pure functions of their
explicit arguments, but `retile` updates the caller's splitlocs mapping so that
every axis key is present and holds the sorted locations (empty when the key was
absent), and `make_edges_grid` inserts every missing axis key with an empty
sequence while keeping stored sequences as they are. -/
theorem claim_C10_amended (pcs : List PointCloud) (sl : SplitLocs) (pctype : PCType) (b : Bounds) :
    (retile pcs sl pctype).2 =
      ⟨some (sortQ (sl.get Axis.x)), some (sortQ (sl.get Axis.y)), some (sortQ (sl.get Axis.z))⟩ ∧
    (make_edges_grid b sl).2 =
      ⟨some (sl.get Axis.x), some (sl.get Axis.y), some (sl.get Axis.z)⟩ :=
  ⟨rfl, rfl⟩

/-! ## Claim C9 -/

/-- Claim C9 counterexample: with malformed bounds minx = 10 > maxx = 0 and a
requested x split count of 5, `fractional_splitlocs` raises nothing and returns a
splitlocs mapping with evenly spaced decreasing locations. -/
theorem claim_C9_counterexample :
    fractional_splitlocs ⟨10, 0, 0, 0, 10, 10⟩ (some 5) Option.none Option.none =
      ⟨some [8, 6, 4, 2], Option.none, Option.none⟩ := by
  have h : linspaceNE (10 : ℚ) 0 5 = [10, 8, 6, 4, 2] := by
    unfold linspaceNE
    norm_num [List.range_succ]
  show SplitLocs.mk (some ((linspaceNE (10 : ℚ) 0 5).drop 1)) Option.none Option.none = _
  rw [h]
  rfl

/-- Claim C9 (amended): `fractional_splitlocs` performs no bounds validation. For
every bounds record with min > max on the x axis and every requested count
n ≥ 2, it returns a splitlocs mapping whose x entry holds n - 1 strictly
decreasing locations instead of failing. -/
theorem claim_C9_amended (b : Bounds) (n : Nat) (h2 : 2 ≤ n) (hba : b.maxx < b.minx) :
    ∃ locs : List ℚ,
      (fractional_splitlocs b (some n) Option.none Option.none).x = some locs ∧
      locs.length = n - 1 ∧ locs.Sorted (fun a c => c < a) := by
  refine ⟨(linspaceNE b.minx b.maxx n).drop 1, rfl, ?_, ?_⟩
  · rw [List.length_drop, linspaceNE, List.length_map, List.length_range]
  · have hn : (0 : ℚ) < n := by
      have h : 0 < n := by omega
      exact_mod_cast h
    refine List.Pairwise.sublist (List.drop_sublist 1 _) ?_
    unfold linspaceNE
    refine List.Pairwise.map _ ?_ (List.pairwise_lt_range n)
    intro i j hij
    have hij' : (i : ℚ) < j := by exact_mod_cast hij
    have hd : b.maxx - b.minx < 0 := by linarith
    have h1 : (b.maxx - b.minx) * j < (b.maxx - b.minx) * i :=
      mul_lt_mul_of_neg_left hij' hd
    have hq : (b.maxx - b.minx) * j / n < (b.maxx - b.minx) * i / n :=
      (div_lt_div_iff_of_pos_right hn).mpr h1
    linarith

/-- Claim C9 witness: the amended theorem at bounds (10,0,0,0,10,10) with a
requested count of 5. -/
theorem claim_C9_witness :
    ∃ locs : List ℚ,
      (fractional_splitlocs ⟨10, 0, 0, 0, 10, 10⟩ (some 5) Option.none Option.none).x = some locs ∧
      locs.length = 5 - 1 ∧ locs.Sorted (fun a c => c < a) :=
  claim_C9_amended ⟨10, 0, 0, 0, 10, 10⟩ 5 (by decide) (by decide)

/-! ## Claim C8 -/

/-- The split capability returns `locs.length + 1` fragments. -/
theorem split_length (pc : PointCloud) (d : Axis) (locs : List ℚ) (pt : Option PCType) :
    (pc.split d locs pt).length = locs.length + 1 := by
  simp [PointCloud.split]

/-- The class of any in-range fragment of a split. -/
theorem split_getD_ty (pc : PointCloud) (d : Axis) (locs : List ℚ) (pt : Option PCType)
    (i : Nat) (h : i < locs.length + 1) :
    ((pc.split d locs pt).getD i ⟨PCType.base, []⟩).ty = pt.getD pc.ty := by
  have hl : i < (pc.split d locs pt).length := by rw [split_length]; exact h
  rw [List.getD_eq_getElem _ _ hl]
  simp [PointCloud.split]

/-- Summation via cloud addition keeps the class of the leftmost operand. -/
theorem foldl_add_ty (l : List PointCloud) (acc : PointCloud) :
    (l.foldl PointCloud.add acc).ty = acc.ty := by
  induction l generalizing acc with
  | nil => rfl
  | cons p ps ih => rw [List.foldl_cons, ih]; rfl

/-- Claim C8 counterexample: `retile` applied to the empty sequence of input clouds
(shape (1,1,1) with no splitlocs) fills the grid with numpy's integer 0, which is
not a Tile instance. -/
theorem claim_C8_counterexample :
    (retile [] ⟨Option.none, Option.none, Option.none⟩ PCType.tile).1.n0 = 1 ∧
    (retile [] ⟨Option.none, Option.none, Option.none⟩ PCType.tile).1.get 0 0 0 = NpObj.int0 :=
  ⟨rfl, rfl⟩

/-- Claim C8 (amended): for every nonempty sequence of input clouds and every
SplitLocs mapping, every in-range element of the 3D array returned by `retile`
with the default Tile class (as used by the factory constructor) is a point cloud
of the immutable Tile class --- including elements produced by the y and z splits
(whose class argument is omitted) and elements formed by summing fragments of
several input clouds. -/
theorem claim_C8_amended (pcs : List PointCloud) (sl : SplitLocs) (hne : pcs ≠ [])
    (ix iy iz : Nat)
    (hx : ix < (retile pcs sl PCType.tile).1.n0)
    (hy : iy < (retile pcs sl PCType.tile).1.n1)
    (hz : iz < (retile pcs sl PCType.tile).1.n2) :
    ∃ q : PointCloud,
      (retile pcs sl PCType.tile).1.get ix iy iz = NpObj.pc q ∧ q.ty = PCType.tile := by
  obtain ⟨p, ps, rfl⟩ := List.exists_cons_of_ne_nil hne
  simp only [retile] at hx hy hz ⊢
  rw [List.length_cons, List.range_succ_eq_map, List.map_cons, npsum]
  refine ⟨_, rfl, ?_⟩
  rw [foldl_add_ty]
  rw [split_getD_ty _ _ _ _ _ hz, split_getD_ty _ _ _ _ _ hy, split_getD_ty _ _ _ _ _ hx]
  rfl

/-- Claim C8 witness: the amended theorem at one input cloud of two points split at
x = 1: the cell (0,0,0) holds a Tile-class cloud. -/
theorem claim_C8_witness :
    ∃ q : PointCloud,
      (retile [⟨PCType.base, [⟨0, 0, 0⟩, ⟨2, 2, 2⟩]⟩] ⟨some [1], Option.none, Option.none⟩
          PCType.tile).1.get 0 0 0 = NpObj.pc q ∧ q.ty = PCType.tile :=
  claim_C8_amended [⟨PCType.base, [⟨0, 0, 0⟩, ⟨2, 2, 2⟩]⟩] ⟨some [1], Option.none, Option.none⟩
    (by decide) 0 0 0 (by decide) (by decide) (by decide)

/-! ## Slicing lemmas -/

/-- An axis specifier carrying a slice step other than 1. -/
def badStep (sp : IndexSpec) : Bool :=
  match sp with
  | IndexSpec.slc _ _ (some s) => decide (s ≠ 1)
  | _ => false

theorem badStep_defaultSpec : badStep defaultSpec = false := rfl

/-- A specifier without a bad step always normalizes successfully. -/
theorem normalizeSpec_ok_of_goodStep {sp : IndexSpec} (h : badStep sp = false) (nd : Nat) :
    ∃ r : Nat × Nat, normalizeSpec sp nd = Except.ok r := by
  cases sp with
  | pynone => exact ⟨_, rfl⟩
  | int i => exact ⟨_, rfl⟩
  | slc a b c =>
    cases c with
    | none => exact ⟨_, rfl⟩
    | some s =>
      have hs : s = 1 := by simpa [badStep] using h
      subst hs
      exact ⟨_, rfl⟩

/-- A specifier with a bad step always normalizes to a ValueError. -/
theorem normalizeSpec_err_of_badStep {sp : IndexSpec} (h : badStep sp = true) (nd : Nat) :
    ∃ m : String, normalizeSpec sp nd = Except.error (PyError.valueError m) := by
  cases sp with
  | pynone => simp [badStep] at h
  | int i => simp [badStep] at h
  | slc a b c =>
    cases c with
    | none => simp [badStep] at h
    | some s =>
      have hs : s ≠ 1 := by simpa [badStep] using h
      by_cases h0 : s = 0
      · subst h0
        exact ⟨"slice step cannot be zero", rfl⟩
      · refine ⟨"TilesGrid must be contiguous, slice step must be 1", ?_⟩
        unfold normalizeSpec pySliceIndices
        simp [h0, hs]

/-- The forward clamp of a start lies in [0, n]. -/
theorem pyClampStart_bounds (a : Option Int) (n : Nat) :
    0 ≤ pyClampStart a 1 n ∧ pyClampStart a 1 n ≤ (n : Int) := by
  cases a with
  | none => simp [pyClampStart]
  | some v =>
    simp only [pyClampStart, show ¬((1 : Int) < 0) by omega, if_false]
    split <;> omega

/-- The forward clamp of a stop lies in [0, n]. -/
theorem pyClampStop_bounds (b : Option Int) (n : Nat) :
    0 ≤ pyClampStop b 1 n ∧ pyClampStop b 1 n ≤ (n : Int) := by
  cases b with
  | none => simp [pyClampStop]
  | some v =>
    simp only [pyClampStop, show ¬((1 : Int) < 0) by omega, if_false]
    split <;> omega

/-- A successful normalization is a pair of forward clamps. -/
theorem normalizeSpec_ok_elim {sp : IndexSpec} {nd : Nat} {r : Nat × Nat}
    (h : normalizeSpec sp nd = Except.ok r) :
    ∃ a b : Option Int,
      r = ((pyClampStart a 1 nd).toNat, (pyClampStop b 1 nd).toNat) := by
  cases sp with
  | pynone =>
    refine ⟨Option.none, Option.none, ?_⟩
    have h1 : normalizeSpec IndexSpec.pynone nd =
        Except.ok ((pyClampStart Option.none 1 nd).toNat, (pyClampStop Option.none 1 nd).toNat) := rfl
    rw [h1] at h
    exact (Except.ok.inj h).symm
  | int i =>
    refine ⟨some i, some (i + 1), ?_⟩
    have h1 : normalizeSpec (IndexSpec.int i) nd =
        Except.ok ((pyClampStart (some i) 1 nd).toNat, (pyClampStop (some (i + 1)) 1 nd).toNat) := rfl
    rw [h1] at h
    exact (Except.ok.inj h).symm
  | slc a b c =>
    cases c with
    | none =>
      refine ⟨a, b, ?_⟩
      have h1 : normalizeSpec (IndexSpec.slc a b Option.none) nd =
          Except.ok ((pyClampStart a 1 nd).toNat, (pyClampStop b 1 nd).toNat) := rfl
      rw [h1] at h
      exact (Except.ok.inj h).symm
    | some s =>
      by_cases h1 : s = 1
      · subst h1
        refine ⟨a, b, ?_⟩
        have h2 : normalizeSpec (IndexSpec.slc a b (some 1)) nd =
            Except.ok ((pyClampStart a 1 nd).toNat, (pyClampStop b 1 nd).toNat) := rfl
        rw [h2] at h
        exact (Except.ok.inj h).symm
      · obtain ⟨m, hm⟩ := @normalizeSpec_err_of_badStep (IndexSpec.slc a b (some s))
          (by simp [badStep, h1]) nd
        rw [hm] at h
        exact absurd h (by simp)

/-- Normalized ranges are clipped to the axis's tile count. -/
theorem normalizeSpec_le {sp : IndexSpec} {nd : Nat} {r : Nat × Nat}
    (h : normalizeSpec sp nd = Except.ok r) : r.1 ≤ nd ∧ r.2 ≤ nd := by
  obtain ⟨a, b, rfl⟩ := normalizeSpec_ok_elim h
  have h1 := pyClampStart_bounds a nd
  have h2 := pyClampStop_bounds b nd
  constructor <;> simp <;> omega

/-- Decomposition of a successful key normalization. -/
theorem normKey_ok_elim {key : List IndexSpec} {n0 n1 n2 : Nat}
    {r : (Nat × Nat) × (Nat × Nat) × (Nat × Nat)}
    (h : normKey key n0 n1 n2 = Except.ok r) :
    normalizeSpec (key.getD 0 defaultSpec) n0 = Except.ok r.1 ∧
    normalizeSpec (key.getD 1 defaultSpec) n1 = Except.ok r.2.1 ∧
    normalizeSpec (key.getD 2 defaultSpec) n2 = Except.ok r.2.2 ∧ key.length ≤ 3 := by
  unfold normKey at h
  split at h
  · exact absurd h (by simp)
  next r0 h0 =>
    split at h
    · exact absurd h (by simp)
    next r1 h1 =>
      split at h
      · exact absurd h (by simp)
      next r2 h2 =>
        by_cases hl : key.length ≤ 3
        · rw [if_pos hl] at h
          obtain rfl : (r0, r1, r2) = r := Except.ok.inj h
          exact ⟨h0, h1, h2, hl⟩
        · rw [if_neg hl] at h
          exact absurd h (by simp)

/-- Decomposition of a successful `__getitem__`. -/
theorem getitem_ok_elim {g g' : TilesGrid} {key : List IndexSpec}
    (h : g.getitem key = Except.ok g') :
    ∃ r0 r1 r2 : Nat × Nat,
      normKey key g.tiles.n0 g.tiles.n1 g.tiles.n2 = Except.ok (r0, r1, r2) ∧
      g' = ⟨g.tiles.slice r0 r1 r2, g.edges.slice (ekeyOf r0) (ekeyOf r1) (ekeyOf r2)⟩ := by
  unfold TilesGrid.getitem at h
  split at h
  · exact absurd h (by simp)
  next r0 r1 r2 hk =>
    exact ⟨r0, r1, r2, hk, (Except.ok.inj h).symm⟩

/-! ## Claim C6 -/

/-- Claim C6: for every TilesGrid and every key of up to three specifiers, if some
axis's specifier has a step other than 1 (zero, negative or greater than one),
`__getitem__` raises a ValueError and returns no result; and when every specifier
has step 1 the step error never occurs --- slicing succeeds. -/
theorem claim_C6 (g : TilesGrid) (key : List IndexSpec) (hlen : key.length ≤ 3) :
    ((∃ sp ∈ key, badStep sp = true) →
      ∃ m : String, g.getitem key = Except.error (PyError.valueError m)) ∧
    ((∀ sp ∈ key, badStep sp = false) →
      ∃ g' : TilesGrid, g.getitem key = Except.ok g') := by
  constructor
  · intro hbad
    obtain ⟨sp, hsp, hb⟩ := hbad
    rcases key with _ | ⟨a, _ | ⟨b, _ | ⟨c, _ | ⟨d, tl⟩⟩⟩⟩
    · exact absurd hsp (by simp)
    · rw [List.mem_singleton] at hsp
      subst hsp
      obtain ⟨m, hm⟩ := normalizeSpec_err_of_badStep hb g.tiles.n0
      refine ⟨m, ?_⟩
      unfold TilesGrid.getitem normKey
      rw [show ([sp].getD 0 defaultSpec) = sp from rfl, hm]
    · by_cases ha : badStep a = true
      · obtain ⟨m, hm⟩ := normalizeSpec_err_of_badStep ha g.tiles.n0
        refine ⟨m, ?_⟩
        unfold TilesGrid.getitem normKey
        rw [show ([a, b].getD 0 defaultSpec) = a from rfl, hm]
      · have hb' : badStep b = true := by
          rcases List.mem_cons.mp hsp with rfl | hsp2
          · exact absurd hb ha
          · rw [List.mem_singleton] at hsp2; exact hsp2 ▸ hb
        obtain ⟨r0, h0⟩ := normalizeSpec_ok_of_goodStep (Bool.not_eq_true _ ▸ ha : badStep a = false) g.tiles.n0
        obtain ⟨m, hm⟩ := normalizeSpec_err_of_badStep hb' g.tiles.n1
        refine ⟨m, ?_⟩
        unfold TilesGrid.getitem normKey
        rw [show ([a, b].getD 0 defaultSpec) = a from rfl, h0,
          show ([a, b].getD 1 defaultSpec) = b from rfl, hm]
    · by_cases ha : badStep a = true
      · obtain ⟨m, hm⟩ := normalizeSpec_err_of_badStep ha g.tiles.n0
        refine ⟨m, ?_⟩
        unfold TilesGrid.getitem normKey
        rw [show ([a, b, c].getD 0 defaultSpec) = a from rfl, hm]
      · obtain ⟨r0, h0⟩ := normalizeSpec_ok_of_goodStep (Bool.not_eq_true _ ▸ ha) g.tiles.n0
        by_cases hbb : badStep b = true
        · obtain ⟨m, hm⟩ := normalizeSpec_err_of_badStep hbb g.tiles.n1
          refine ⟨m, ?_⟩
          unfold TilesGrid.getitem normKey
          rw [show ([a, b, c].getD 0 defaultSpec) = a from rfl, h0,
            show ([a, b, c].getD 1 defaultSpec) = b from rfl, hm]
        · have hc : badStep c = true := by
            rcases List.mem_cons.mp hsp with rfl | hsp2
            · exact absurd hb ha
            · rcases List.mem_cons.mp hsp2 with rfl | hsp3
              · exact absurd hb hbb
              · rw [List.mem_singleton] at hsp3; exact hsp3 ▸ hb
          obtain ⟨r1, h1⟩ := normalizeSpec_ok_of_goodStep (Bool.not_eq_true _ ▸ hbb) g.tiles.n1
          obtain ⟨m, hm⟩ := normalizeSpec_err_of_badStep hc g.tiles.n2
          refine ⟨m, ?_⟩
          unfold TilesGrid.getitem normKey
          rw [show ([a, b, c].getD 0 defaultSpec) = a from rfl, h0,
            show ([a, b, c].getD 1 defaultSpec) = b from rfl, h1,
            show ([a, b, c].getD 2 defaultSpec) = c from rfl, hm]
    · exfalso
      simp only [List.length_cons] at hlen
      omega
  · intro hgood
    have hd : ∀ i : Nat, badStep (key.getD i defaultSpec) = false := by
      intro i
      by_cases hi : i < key.length
      · rw [List.getD_eq_getElem _ _ hi]
        exact hgood _ (List.getElem_mem hi)
      · rw [List.getD_eq_default _ _ (by omega)]
        rfl
    obtain ⟨r0, h0⟩ := normalizeSpec_ok_of_goodStep (hd 0) g.tiles.n0
    obtain ⟨r1, h1⟩ := normalizeSpec_ok_of_goodStep (hd 1) g.tiles.n1
    obtain ⟨r2, h2⟩ := normalizeSpec_ok_of_goodStep (hd 2) g.tiles.n2
    refine ⟨⟨g.tiles.slice r0 r1 r2, g.edges.slice (ekeyOf r0) (ekeyOf r1) (ekeyOf r2)⟩, ?_⟩
    unfold TilesGrid.getitem normKey
    rw [h0, h1, h2]
    simp only [if_pos hlen]

/-- Claim C6 witness: slicing the concrete 2-step key fails with a ValueError and
the all-step-1 key succeeds, on a concrete 1×1×1 grid. -/
theorem claim_C6_witness :
    (∃ m : String,
      TilesGrid.getitem
        ⟨⟨1, 1, 1, fun _ _ _ => NpObj.int0⟩, ⟨2, 2, 2, 3, fun _ _ _ _ => 0⟩⟩
        [IndexSpec.slc Option.none Option.none (some 2)] =
        Except.error (PyError.valueError m)) ∧
    (∃ g' : TilesGrid,
      TilesGrid.getitem
        ⟨⟨1, 1, 1, fun _ _ _ => NpObj.int0⟩, ⟨2, 2, 2, 3, fun _ _ _ _ => 0⟩⟩
        [IndexSpec.slc Option.none Option.none (some 1), IndexSpec.int 0] =
        Except.ok g') :=
  ⟨(claim_C6 ⟨⟨1, 1, 1, fun _ _ _ => NpObj.int0⟩, ⟨2, 2, 2, 3, fun _ _ _ _ => 0⟩⟩
      [IndexSpec.slc Option.none Option.none (some 2)] (by decide)).1
      ⟨IndexSpec.slc Option.none Option.none (some 2), by simp, by decide⟩,
   (claim_C6 ⟨⟨1, 1, 1, fun _ _ _ => NpObj.int0⟩, ⟨2, 2, 2, 3, fun _ _ _ _ => 0⟩⟩
      [IndexSpec.slc Option.none Option.none (some 1), IndexSpec.int 0] (by decide)).2
      (by intro sp hsp; rcases List.mem_cons.mp hsp with rfl | hsp2; · rfl
          · rw [List.mem_singleton] at hsp2; subst hsp2; rfl)⟩

/-! ## Claim C7 -/

/-- An empty tile range yields an empty edge range after clipping, whether or not
the stop was extended. -/
theorem ekey_clip_empty (r : Nat × Nat) (m : Nat) (hle : r.2 ≤ r.1) :
    min (ekeyOf r).2 m - min (ekeyOf r).1 m = 0 := by
  unfold ekeyOf
  by_cases he : r.2 = r.1
  · rw [if_pos he]
    omega
  · rw [if_neg he]
    show min (r.2 + 1) m - min r.1 m = 0
    omega

/-- Claim C7: for every accepted index key, the edges sub-array uses, on each axis,
the tile range with its stop extended by one when the tile range is non-empty
(clipped to the edges axis length, as numpy slicing does), and yields zero edges
on an axis whose tile range is empty --- never one. -/
theorem claim_C7 (g g' : TilesGrid) (key : List IndexSpec) (r0 r1 r2 : Nat × Nat)
    (hk : normKey key g.tiles.n0 g.tiles.n1 g.tiles.n2 = Except.ok (r0, r1, r2))
    (h : g.getitem key = Except.ok g') :
    (r0.1 < r0.2 → g'.edges.n0 = min (r0.2 + 1) g.edges.n0 - min r0.1 g.edges.n0) ∧
    (r0.2 ≤ r0.1 → g'.edges.n0 = 0) ∧
    (r1.1 < r1.2 → g'.edges.n1 = min (r1.2 + 1) g.edges.n1 - min r1.1 g.edges.n1) ∧
    (r1.2 ≤ r1.1 → g'.edges.n1 = 0) ∧
    (r2.1 < r2.2 → g'.edges.n2 = min (r2.2 + 1) g.edges.n2 - min r2.1 g.edges.n2) ∧
    (r2.2 ≤ r2.1 → g'.edges.n2 = 0) := by
  obtain ⟨s0, s1, s2, hk2, rfl⟩ := getitem_ok_elim h
  have heq := Except.ok.inj (hk2.symm.trans hk)
  obtain ⟨rfl, rfl, rfl⟩ : r0 = s0 ∧ r1 = s1 ∧ r2 = s2 := by
    simpa [Prod.ext_iff] using heq.symm
  refine ⟨?_, fun hle => ekey_clip_empty r0 g.edges.n0 hle,
          ?_, fun hle => ekey_clip_empty r1 g.edges.n1 hle,
          ?_, fun hle => ekey_clip_empty r2 g.edges.n2 hle⟩
  · intro hlt
    show min (ekeyOf r0).2 g.edges.n0 - min (ekeyOf r0).1 g.edges.n0 = _
    unfold ekeyOf
    rw [if_neg (by omega)]
  · intro hlt
    show min (ekeyOf r1).2 g.edges.n1 - min (ekeyOf r1).1 g.edges.n1 = _
    unfold ekeyOf
    rw [if_neg (by omega)]
  · intro hlt
    show min (ekeyOf r2).2 g.edges.n2 - min (ekeyOf r2).1 g.edges.n2 = _
    unfold ekeyOf
    rw [if_neg (by omega)]

/-- A concrete 4×4×4 grid (edges 5×5×5×3) used by the slicing witnesses. -/
def cubeGrid : TilesGrid :=
  ⟨⟨4, 4, 4, fun _ _ _ => NpObj.pc ⟨PCType.tile, [⟨1, 1, 1⟩]⟩⟩,
   ⟨5, 5, 5, 3, fun i j k m => if m = 0 then (i : ℚ) else if m = 1 then (j : ℚ) else (k : ℚ)⟩⟩

/-- The sub-grid of `cubeGrid` under the key `[0, 2:2]`. -/
def cubeSubA : TilesGrid :=
  (cubeGrid.getitem [IndexSpec.int 0, IndexSpec.slc (some 2) (some 2) Option.none]).toOption.getD
    cubeGrid

/-- Claim C7 witness: the theorem applied to `cubeGrid[0, 2:2]` --- the x tile range
(0,1) is non-empty, the y tile range (2,2) is empty. -/
theorem claim_C7_witness :
    ((0 : Nat) < 1 → cubeSubA.edges.n0 = min (1 + 1) cubeGrid.edges.n0 - min 0 cubeGrid.edges.n0) ∧
    ((1 : Nat) ≤ 0 → cubeSubA.edges.n0 = 0) ∧
    ((2 : Nat) < 2 → cubeSubA.edges.n1 = min (2 + 1) cubeGrid.edges.n1 - min 2 cubeGrid.edges.n1) ∧
    ((2 : Nat) ≤ 2 → cubeSubA.edges.n1 = 0) ∧
    ((0 : Nat) < 4 → cubeSubA.edges.n2 = min (4 + 1) cubeGrid.edges.n2 - min 0 cubeGrid.edges.n2) ∧
    ((4 : Nat) ≤ 0 → cubeSubA.edges.n2 = 0) :=
  claim_C7 cubeGrid cubeSubA [IndexSpec.int 0, IndexSpec.slc (some 2) (some 2) Option.none]
    (0, 1) (2, 2) (0, 4) (by rfl) (by rfl)

/-! ## Claim C5 -/

/-- Claim C5 counterexample: on a 4×4×4 grid, the integer index -1 does not select
the last tile on the axis: the code coerces it to `slice(-1, 0)`, whose frozen
range [3, 0) is empty, so the resulting grid has 0 tiles along that axis. -/
theorem claim_C5_counterexample :
    cubeGrid.tiles.n0 = 4 ∧
    ∃ g' : TilesGrid,
      cubeGrid.getitem [IndexSpec.int (-1)] = Except.ok g' ∧ g'.tiles.n0 = 0 :=
  ⟨rfl, ⟨_, rfl, rfl⟩⟩

/-- Claim C5 (amended): `__getitem__` normalizes each specifier to a half-open
[start, stop) range clipped to the axis's tile count with standard slice
semantics, except integer indexing: an integer `i` is coerced to `slice(i, i+1)`,
so negative integers other than -1 count from the end but -1 itself freezes to
the empty range [n-1, 0). An omitted specifier is the full axis, and the
resulting grid's shape equals the clipped range lengths (shape (4,4,4) sliced
with [1:3, :, 2] gives shape (2,4,1) and edges shape (3,5,2,3)). -/
theorem claim_C5_amended :
    (∀ (n : Nat) (i : Int),
      normalizeSpec (IndexSpec.int i) n =
        Except.ok
          ((if 0 ≤ i then min i.toNat n else (i + n).toNat),
           (if 0 ≤ i + 1 then min (i + 1).toNat n else (i + 1 + n).toNat))) ∧
    (∀ n : Nat, normalizeSpec IndexSpec.pynone n = Except.ok (0, n)) ∧
    (∀ (g g' : TilesGrid) (key : List IndexSpec) (r0 r1 r2 : Nat × Nat),
      normKey key g.tiles.n0 g.tiles.n1 g.tiles.n2 = Except.ok (r0, r1, r2) →
      g.getitem key = Except.ok g' →
      g'.tiles.n0 = r0.2 - r0.1 ∧ g'.tiles.n1 = r1.2 - r1.1 ∧ g'.tiles.n2 = r2.2 - r2.1) ∧
    (∀ g g' : TilesGrid,
      g.tiles.n0 = 4 → g.tiles.n1 = 4 → g.tiles.n2 = 4 →
      g.edges.n0 = 5 → g.edges.n1 = 5 → g.edges.n2 = 5 → g.edges.n3 = 3 →
      g.getitem [IndexSpec.slc (some 1) (some 3) Option.none, IndexSpec.pynone,
        IndexSpec.int 2] = Except.ok g' →
      (g'.tiles.n0 = 2 ∧ g'.tiles.n1 = 4 ∧ g'.tiles.n2 = 1) ∧
      (g'.edges.n0 = 3 ∧ g'.edges.n1 = 5 ∧ g'.edges.n2 = 2 ∧ g'.edges.n3 = 3)) := by
  refine ⟨?_, fun n => rfl, ?_, ?_⟩
  · intro n i
    have h1 : normalizeSpec (IndexSpec.int i) n =
        Except.ok ((pyClampStart (some i) 1 n).toNat, (pyClampStop (some (i + 1)) 1 n).toNat) := rfl
    rw [h1]
    have hne : ¬((1 : Int) < 0) := by omega
    simp only [pyClampStart, pyClampStop, hne, if_false, Except.ok.injEq, Prod.mk.injEq]
    constructor
    · by_cases hi : (0 : Int) ≤ i
      · rw [if_neg (by omega), if_pos hi]
        omega
      · rw [if_pos (by omega), if_neg hi]
        omega
    · by_cases hi : (0 : Int) ≤ i + 1
      · rw [if_neg (by omega), if_pos hi]
        omega
      · rw [if_pos (by omega), if_neg hi]
        omega
  · intro g g' key r0 r1 r2 hk h
    obtain ⟨s0, s1, s2, hk2, rfl⟩ := getitem_ok_elim h
    have heq := Except.ok.inj (hk2.symm.trans hk)
    obtain ⟨rfl, rfl, rfl⟩ : r0 = s0 ∧ r1 = s1 ∧ r2 = s2 := by
      simpa [Prod.ext_iff] using heq.symm
    obtain ⟨hn0, hn1, hn2, _⟩ := normKey_ok_elim hk
    have b0 := normalizeSpec_le hn0
    have b1 := normalizeSpec_le hn1
    have b2 := normalizeSpec_le hn2
    dsimp only at b0 b1 b2
    refine ⟨?_, ?_, ?_⟩
    · show min r0.2 g.tiles.n0 - min r0.1 g.tiles.n0 = _
      omega
    · show min r1.2 g.tiles.n1 - min r1.1 g.tiles.n1 = _
      omega
    · show min r2.2 g.tiles.n2 - min r2.1 g.tiles.n2 = _
      omega
  · intro g g' hn0 hn1 hn2 he0 he1 he2 he3 h
    obtain ⟨r0, r1, r2, hk, rfl⟩ := getitem_ok_elim h
    rw [hn0, hn1, hn2] at hk
    have hk2 : normKey [IndexSpec.slc (some 1) (some 3) Option.none, IndexSpec.pynone,
        IndexSpec.int 2] 4 4 4 = Except.ok ((1, 3), (0, 4), (2, 3)) := rfl
    have heq := Except.ok.inj (hk2.symm.trans hk)
    obtain ⟨rfl, rfl, rfl⟩ : (1, 3) = r0 ∧ (0, 4) = r1 ∧ (2, 3) = r2 := by
      simpa [Prod.ext_iff] using heq
    refine ⟨⟨?_, ?_, ?_⟩, ⟨?_, ?_, ?_, he3⟩⟩
    · show min 3 g.tiles.n0 - min 1 g.tiles.n0 = 2
      rw [hn0]
      decide
    · show min 4 g.tiles.n1 - min 0 g.tiles.n1 = 4
      rw [hn1]
      decide
    · show min 3 g.tiles.n2 - min 2 g.tiles.n2 = 1
      rw [hn2]
      decide
    · show min 4 g.edges.n0 - min 1 g.edges.n0 = 3
      rw [he0]
      decide
    · show min 5 g.edges.n1 - min 0 g.edges.n1 = 5
      rw [he1]
      decide
    · show min 4 g.edges.n2 - min 2 g.edges.n2 = 2
      rw [he2]
      decide

/-- The sub-grid of `cubeGrid` under the key `[1:3, :, 2]`. -/
def cubeSubB : TilesGrid :=
  (cubeGrid.getitem [IndexSpec.slc (some 1) (some 3) Option.none, IndexSpec.pynone,
    IndexSpec.int 2]).toOption.getD cubeGrid

/-- Claim C5 witness: the amended theorem's scenario applied to the concrete
4×4×4 grid: the sub-grid has shape (2,4,1) and edges shape (3,5,2,3). -/
theorem claim_C5_witness :
    (cubeSubB.tiles.n0 = 2 ∧ cubeSubB.tiles.n1 = 4 ∧ cubeSubB.tiles.n2 = 1) ∧
    (cubeSubB.edges.n0 = 3 ∧ cubeSubB.edges.n1 = 5 ∧ cubeSubB.edges.n2 = 2 ∧
      cubeSubB.edges.n3 = 3) :=
  claim_C5_amended.2.2.2 cubeGrid cubeSubB rfl rfl rfl rfl rfl rfl rfl (by rfl)

/-! ## Validation lemmas -/

theorem validateGo_cons (g : TilesGrid) (c : Nat × Nat × Nat) (cs : List (Nat × Nat × Nat)) :
    validateGo g (c :: cs) =
      match cellCheck g c with
      | Option.none => Option.none
      | some false => some false
      | some true => validateGo g cs := rfl

/-- The validation loop returns `some true` exactly when every listed cell checks
out. -/
theorem validateGo_true_iff (g : TilesGrid) (l : List (Nat × Nat × Nat)) :
    validateGo g l = some true ↔ ∀ c ∈ l, cellCheck g c = some true := by
  induction l with
  | nil => simp [validateGo]
  | cons c cs ih =>
    rw [validateGo_cons]
    cases hcc : cellCheck g c with
    | none =>
      constructor
      · intro h
        exact absurd h (by simp)
      · intro h
        have hx := h c (List.mem_cons_self c cs)
        rw [hcc] at hx
        exact absurd hx (by simp)
    | some b =>
      cases b with
      | false =>
        constructor
        · intro h
          exact absurd h (by simp)
        · intro h
          have hx := h c (List.mem_cons_self c cs)
          rw [hcc] at hx
          exact absurd hx (by simp)
      | true =>
        constructor
        · intro h d hd
          rcases List.mem_cons.mp hd with rfl | hd2
          · exact hcc
          · exact ih.mp h d hd2
        · intro h
          exact ih.mpr fun d hd => h d (List.mem_cons.mpr (Or.inr hd))

/-- Membership of the validation cell list is exactly in-range indexing. -/
theorem mem_cells {g : TilesGrid} {ix iy iz : Nat} :
    (ix, iy, iz) ∈ cells g ↔ ix < g.tiles.n0 ∧ iy < g.tiles.n1 ∧ iz < g.tiles.n2 := by
  simp only [cells, List.mem_flatMap, List.mem_map, List.mem_range, Prod.mk.injEq]
  constructor
  · rintro ⟨a, ha, b, hb, c, hc, rfl, rfl, rfl⟩
    exact ⟨ha, hb, hc⟩
  · rintro ⟨ha, hb, hc⟩
    exact ⟨ix, ha, iy, hb, ⟨iz, hc, rfl, rfl, rfl⟩⟩

/-- A successful cell check implies that both edge accesses were in range. -/
theorem cellCheck_true_ranges {g : TilesGrid} {c : Nat × Nat × Nat}
    (h : cellCheck g c = some true) :
    c.1 + 1 < g.edges.n0 ∧ c.2.1 + 1 < g.edges.n1 ∧ c.2.2 + 1 < g.edges.n2 := by
  unfold cellCheck at h
  split at h
  · exact absurd h (by simp)
  next lo hlo =>
    split at h
    · exact absurd h (by simp)
    next hi hhi =>
      unfold Arr4.get3? at hhi
      split at hhi
      · next hcond => exact hcond
      · exact absurd hhi (by simp)

/-- A validated grid with tiles on every axis has edges arrays at least one larger
than the tiles array on each axis. -/
theorem validate_true_edges_dims {g : TilesGrid}
    (hv : g.validate = some true)
    (h0 : 0 < g.tiles.n0) (h1 : 0 < g.tiles.n1) (h2 : 0 < g.tiles.n2) :
    g.tiles.n0 < g.edges.n0 ∧ g.tiles.n1 < g.edges.n1 ∧ g.tiles.n2 < g.edges.n2 := by
  have hc := (validateGo_true_iff g (cells g)).mp hv
    (g.tiles.n0 - 1, g.tiles.n1 - 1, g.tiles.n2 - 1)
    (mem_cells.mpr ⟨by omega, by omega, by omega⟩)
  have hr := cellCheck_true_ranges hc
  dsimp only at hr
  omega

/-- Slicing then reading an edge vector is reading the shifted edge vector of the
parent array. -/
theorem Arr4.slice_get3? (e : Arr4) (r0 r1 r2 : Nat × Nat) (i j k : Nat)
    (hi : i < min r0.2 e.n0 - min r0.1 e.n0)
    (hj : j < min r1.2 e.n1 - min r1.1 e.n1)
    (hk : k < min r2.2 e.n2 - min r2.1 e.n2) :
    (e.slice r0 r1 r2).get3? i j k =
      e.get3? (min r0.1 e.n0 + i) (min r1.1 e.n1 + j) (min r2.1 e.n2 + k) := by
  unfold Arr4.slice Arr4.get3?
  dsimp only
  rw [if_pos ⟨hi, hj, hk⟩, if_pos ⟨by omega, by omega, by omega⟩]

theorem Arr3.slice_get {α : Type} (a : Arr3 α) (r0 r1 r2 : Nat × Nat) (i j k : Nat) :
    (a.slice r0 r1 r2).get i j k =
      a.get (min r0.1 a.n0 + i) (min r1.1 a.n1 + j) (min r2.1 a.n2 + k) := rfl

theorem ekeyOf_fst (r : Nat × Nat) : (ekeyOf r).1 = r.1 := by
  unfold ekeyOf
  split <;> rfl

theorem ekeyOf_snd_of_lt {r : Nat × Nat} (h : r.1 < r.2) : (ekeyOf r).2 = r.2 + 1 := by
  unfold ekeyOf
  rw [if_neg (by omega)]

/-! ## Claim C2 -/

/-- Claim C2: slicing preserves grid validity --- for every TilesGrid on which
`validate` returns True and every index key accepted by `__getitem__`, the
sub-grid also satisfies `validate` = True, so constructing the result without
re-validation is safe. -/
theorem claim_C2 (g g' : TilesGrid) (key : List IndexSpec)
    (hv : g.validate = some true) (h : g.getitem key = Except.ok g') :
    g'.validate = some true := by
  obtain ⟨r0, r1, r2, hk, rfl⟩ := getitem_ok_elim h
  obtain ⟨hn0, hn1, hn2, _⟩ := normKey_ok_elim hk
  have b0 := normalizeSpec_le hn0
  have b1 := normalizeSpec_le hn1
  have b2 := normalizeSpec_le hn2
  dsimp only at b0 b1 b2
  have hall := (validateGo_true_iff g (cells g)).mp hv
  refine (validateGo_true_iff _ _).mpr ?_
  intro c hc
  obtain ⟨i, j, k⟩ := c
  have hmem := mem_cells.mp hc
  have hi : i < min r0.2 g.tiles.n0 - min r0.1 g.tiles.n0 := hmem.1
  have hj : j < min r1.2 g.tiles.n1 - min r1.1 g.tiles.n1 := hmem.2.1
  have hk2 : k < min r2.2 g.tiles.n2 - min r2.1 g.tiles.n2 := hmem.2.2
  have hlt0 : r0.1 < r0.2 := by omega
  have hlt1 : r1.1 < r1.2 := by omega
  have hlt2 : r2.1 < r2.2 := by omega
  have hpos0 : 0 < g.tiles.n0 := by omega
  have hpos1 : 0 < g.tiles.n1 := by omega
  have hpos2 : 0 < g.tiles.n2 := by omega
  obtain ⟨hm0, hm1, hm2⟩ := validate_true_edges_dims hv hpos0 hpos1 hpos2
  have hE1 : (g.edges.slice (ekeyOf r0) (ekeyOf r1) (ekeyOf r2)).get3? i j k =
      g.edges.get3? (r0.1 + i) (r1.1 + j) (r2.1 + k) := by
    rw [Arr4.slice_get3?]
    · congr 1 <;> rw [ekeyOf_fst] <;> rw [min_eq_left (by omega)]
    · rw [ekeyOf_fst, ekeyOf_snd_of_lt hlt0]
      omega
    · rw [ekeyOf_fst, ekeyOf_snd_of_lt hlt1]
      omega
    · rw [ekeyOf_fst, ekeyOf_snd_of_lt hlt2]
      omega
  have hE2 : (g.edges.slice (ekeyOf r0) (ekeyOf r1) (ekeyOf r2)).get3? (i + 1) (j + 1) (k + 1) =
      g.edges.get3? (r0.1 + i + 1) (r1.1 + j + 1) (r2.1 + k + 1) := by
    rw [Arr4.slice_get3?]
    · congr 1 <;> rw [ekeyOf_fst] <;> rw [min_eq_left (by omega)] <;> omega
    · rw [ekeyOf_fst, ekeyOf_snd_of_lt hlt0]
      omega
    · rw [ekeyOf_fst, ekeyOf_snd_of_lt hlt1]
      omega
    · rw [ekeyOf_fst, ekeyOf_snd_of_lt hlt2]
      omega
  have hT : (g.tiles.slice r0 r1 r2).get i j k =
      g.tiles.get (r0.1 + i) (r1.1 + j) (r2.1 + k) := by
    rw [Arr3.slice_get]
    congr 1 <;> rw [min_eq_left (by omega)]
  have hc2 := hall (r0.1 + i, r1.1 + j, r2.1 + k)
    (mem_cells.mpr ⟨by omega, by omega, by omega⟩)
  unfold cellCheck at hc2 ⊢
  dsimp only at hc2 ⊢
  rw [hE1, hE2, hT]
  exact hc2

/-- A concrete valid 1×1×1 grid (edges 2×2×2×3). -/
def gV : TilesGrid :=
  ⟨⟨1, 1, 1, fun _ _ _ => NpObj.pc ⟨PCType.tile, [⟨1, 1, 1⟩]⟩⟩,
   ⟨2, 2, 2, 3, fun i j k m =>
     if m = 0 then (if i = 0 then 0 else 2)
     else if m = 1 then (if j = 0 then 0 else 2)
     else (if k = 0 then 0 else 2)⟩⟩

/-- The sub-grid of `gV` under the key `[0]`. -/
def gVsub : TilesGrid := (gV.getitem [IndexSpec.int 0]).toOption.getD gV

/-- Claim C2 witness: the theorem applied to the concrete valid grid `gV` and the
accepted key `[0]`: the sub-grid validates. -/
theorem claim_C2_witness : gVsub.validate = some true :=
  claim_C2 gV gVsub [IndexSpec.int 0] (by decide) (by rfl)

/-! ## Claim C1 -/

theorem sortQ_sorted (l : List ℚ) : (sortQ l).Sorted (fun a b => a ≤ b) :=
  List.sorted_insertionSort _ l

theorem sortQ_idem (l : List ℚ) : sortQ (sortQ l) = sortQ l :=
  List.Sorted.insertionSort_eq (sortQ_sorted l)

/-- Decomposition of a successful factory construction: the merged bounds exist,
the tiles come from `retile` on the sorted mapping and the edges from
`make_edges_grid` on the same sorted mapping and the same merged bounds. -/
theorem from_splitlocs_ok_elim {pcs : List PointCloud} {sl : SplitLocs}
    {g : TilesGrid} {sl2 : SplitLocs}
    (h : from_splitlocs pcs sl = Except.ok (g, sl2)) :
    ∃ mb : Bounds, computeMergedBounds pcs = some mb ∧
      g.tiles = (retile pcs ⟨some (sortQ (sl.get Axis.x)), some (sortQ (sl.get Axis.y)),
        some (sortQ (sl.get Axis.z))⟩ PCType.tile).1 ∧
      g.edges = (make_edges_grid mb
        ⟨some (sortQ (sl.get Axis.x)), some (sortQ (sl.get Axis.y)),
          some (sortQ (sl.get Axis.z))⟩).1 := by
  have hr2 : (retile pcs ⟨some (sortQ (sl.get Axis.x)), some (sortQ (sl.get Axis.y)),
      some (sortQ (sl.get Axis.z))⟩ PCType.tile).2 =
      ⟨some (sortQ (sl.get Axis.x)), some (sortQ (sl.get Axis.y)),
        some (sortQ (sl.get Axis.z))⟩ := by
    show SplitLocs.mk (some (sortQ (sortQ (sl.get Axis.x)))) (some (sortQ (sortQ (sl.get Axis.y))))
      (some (sortQ (sortQ (sl.get Axis.z)))) = _
    rw [sortQ_idem, sortQ_idem, sortQ_idem]
  simp only [from_splitlocs] at h
  split at h
  · exact absurd h (by simp)
  next mb hmb =>
    split at h
    · have hpair := Except.ok.inj h
      have hg := congrArg Prod.fst hpair
      dsimp only at hg
      refine ⟨mb, hmb, ?_, ?_⟩
      · rw [← hg]
      · rw [← hg]
        show (make_edges_grid mb (retile pcs _ PCType.tile).2).1 = _
        rw [hr2]
    · exact absurd h (by simp)

/-- The edge vector of the mesh at an in-range index triple. -/
theorem meg_get3? (b : Bounds) (sl : SplitLocs) (i j k : Nat)
    (hi : i < (make_edges_grid b sl).1.n0) (hj : j < (make_edges_grid b sl).1.n1)
    (hk : k < (make_edges_grid b sl).1.n2) :
    (make_edges_grid b sl).1.get3? i j k =
      some [(edgeList b.minx b.maxx (sl.get Axis.x)).getD i 0,
            (edgeList b.miny b.maxy (sl.get Axis.y)).getD j 0,
            (edgeList b.minz b.maxz (sl.get Axis.z)).getD k 0] := by
  unfold Arr4.get3?
  rw [if_pos ⟨hi, hj, hk⟩]
  show some ((List.range 3).map _) = _
  rw [show List.range 3 = [0, 1, 2] from rfl]
  simp only [List.map_cons, List.map_nil]
  rw [meg_get0, meg_get1, meg_get2]

/-- Claim C1: for every input cloud sequence and SplitLocs mapping accepted by the
factory constructor `from_splitlocs`, assuming the external split capability
returned fragments whose bounds lie within the split intervals (the per-axis
interval between consecutive entries of [merged-min] ++ sorted locations ++
[merged-max]), the produced TilesGrid satisfies `validate` = True. -/
theorem claim_C1 (pcs : List PointCloud) (sl : SplitLocs) (g : TilesGrid) (sl2 : SplitLocs)
    (mb : Bounds) (hmb : computeMergedBounds pcs = some mb)
    (hok : from_splitlocs pcs sl = Except.ok (g, sl2))
    (hfrag : ∀ ix iy iz : Nat,
      ix < g.tiles.n0 → iy < g.tiles.n1 → iz < g.tiles.n2 →
      ∃ b : Bounds, npBounds? (g.tiles.get ix iy iz) = some b ∧
        (edgeList mb.minx mb.maxx (sortQ (sl.get Axis.x))).getD ix 0 ≤ b.minx ∧
        b.maxx ≤ (edgeList mb.minx mb.maxx (sortQ (sl.get Axis.x))).getD (ix + 1) 0 ∧
        (edgeList mb.miny mb.maxy (sortQ (sl.get Axis.y))).getD iy 0 ≤ b.miny ∧
        b.maxy ≤ (edgeList mb.miny mb.maxy (sortQ (sl.get Axis.y))).getD (iy + 1) 0 ∧
        (edgeList mb.minz mb.maxz (sortQ (sl.get Axis.z))).getD iz 0 ≤ b.minz ∧
        b.maxz ≤ (edgeList mb.minz mb.maxz (sortQ (sl.get Axis.z))).getD (iz + 1) 0) :
    g.validate = some true := by
  obtain ⟨mb2, hmb2, htiles, hedges⟩ := from_splitlocs_ok_elim hok
  obtain rfl : mb = mb2 := Option.some.inj (hmb.symm.trans hmb2)
  have hdim0 : g.tiles.n0 = (sortQ (sl.get Axis.x)).length + 1 := by
    rw [htiles]
    show (sortQ (sortQ (sl.get Axis.x))).length + 1 = _
    rw [sortQ_idem]
  have hdim1 : g.tiles.n1 = (sortQ (sl.get Axis.y)).length + 1 := by
    rw [htiles]
    show (sortQ (sortQ (sl.get Axis.y))).length + 1 = _
    rw [sortQ_idem]
  have hdim2 : g.tiles.n2 = (sortQ (sl.get Axis.z)).length + 1 := by
    rw [htiles]
    show (sortQ (sortQ (sl.get Axis.z))).length + 1 = _
    rw [sortQ_idem]
  have hed0 : g.edges.n0 = (sortQ (sl.get Axis.x)).length + 2 := by
    rw [hedges, meg_n0]
    rfl
  have hed1 : g.edges.n1 = (sortQ (sl.get Axis.y)).length + 2 := by
    rw [hedges, meg_n1]
    rfl
  have hed2 : g.edges.n2 = (sortQ (sl.get Axis.z)).length + 2 := by
    rw [hedges, meg_n2]
    rfl
  refine (validateGo_true_iff _ _).mpr ?_
  intro c hc
  obtain ⟨ix, iy, iz⟩ := c
  obtain ⟨hx, hy, hz⟩ := mem_cells.mp hc
  obtain ⟨b, hb, hx1, hx2, hy1, hy2, hz1, hz2⟩ := hfrag ix iy iz hx hy hz
  have hlo : g.edges.get3? ix iy iz =
      some [(edgeList mb.minx mb.maxx (sortQ (sl.get Axis.x))).getD ix 0,
            (edgeList mb.miny mb.maxy (sortQ (sl.get Axis.y))).getD iy 0,
            (edgeList mb.minz mb.maxz (sortQ (sl.get Axis.z))).getD iz 0] := by
    rw [hedges]
    exact meg_get3? mb _ ix iy iz
      (by rw [meg_n0]; show ix < (sortQ (sl.get Axis.x)).length + 2; omega)
      (by rw [meg_n1]; show iy < (sortQ (sl.get Axis.y)).length + 2; omega)
      (by rw [meg_n2]; show iz < (sortQ (sl.get Axis.z)).length + 2; omega)
  have hhi : g.edges.get3? (ix + 1) (iy + 1) (iz + 1) =
      some [(edgeList mb.minx mb.maxx (sortQ (sl.get Axis.x))).getD (ix + 1) 0,
            (edgeList mb.miny mb.maxy (sortQ (sl.get Axis.y))).getD (iy + 1) 0,
            (edgeList mb.minz mb.maxz (sortQ (sl.get Axis.z))).getD (iz + 1) 0] := by
    rw [hedges]
    exact meg_get3? mb _ (ix + 1) (iy + 1) (iz + 1)
      (by rw [meg_n0]; show ix + 1 < (sortQ (sl.get Axis.x)).length + 2; omega)
      (by rw [meg_n1]; show iy + 1 < (sortQ (sl.get Axis.y)).length + 2; omega)
      (by rw [meg_n2]; show iz + 1 < (sortQ (sl.get Axis.z)).length + 2; omega)
  unfold cellCheck
  dsimp only
  rw [hlo, hhi, hb]
  simp only [List.zip_cons_cons, List.zip_nil_left, List.zip_nil_right, List.all_cons,
    List.all_nil, Bool.and_eq_true, decide_eq_true_eq, Option.some.injEq, Bool.and_true]
  exact ⟨⟨hx1, hy1, hz1⟩, hx2, hy2, hz2⟩

/-- Concrete factory inputs: one cloud spanning (0,0,0)-(20,16,10) with one point
in each of the four tiles produced by splitlocs x = [10], y = [8]. -/
def pcsC1 : List PointCloud :=
  [⟨PCType.base, [⟨0, 0, 0⟩, ⟨20, 16, 10⟩, ⟨5, 9, 3⟩, ⟨15, 2, 5⟩]⟩]

def slC1 : SplitLocs := ⟨some [10], some [8], Option.none⟩

/-- The grid and final mapping produced by the factory on the concrete inputs. -/
def fsC1 : TilesGrid × SplitLocs :=
  (from_splitlocs pcsC1 slC1).toOption.getD
    (⟨⟨0, 0, 0, fun _ _ _ => NpObj.int0⟩, ⟨0, 0, 0, 0, fun _ _ _ _ => 0⟩⟩, slC1)

/-- Claim C1 witness: the theorem applied to the concrete factory construction;
the per-cell containment hypothesis is discharged by computation. -/
theorem claim_C1_witness : (fsC1.1).validate = some true :=
  claim_C1 pcsC1 slC1 fsC1.1 fsC1.2 ⟨0, 0, 0, 20, 16, 10⟩ (by rfl) (by rfl)
    (by
      intro ix iy iz hx hy hz
      rw [show fsC1.1.tiles.n0 = 2 from rfl] at hx
      rw [show fsC1.1.tiles.n1 = 2 from rfl] at hy
      rw [show fsC1.1.tiles.n2 = 1 from rfl] at hz
      interval_cases ix <;> interval_cases iy <;> interval_cases iz <;>
        exact ⟨_, rfl, by decide, by decide, by decide, by decide, by decide, by decide⟩)
